import Mathlib

/-!
Shallow embedding of the purchase-order PDF → CSV extraction core
(`src/app.py`, `src/fixed_app.py`, `src/app_v6.py`, `src/pdf_to_csv.py`).

Modelling conventions:
* Python strings are Lean `String`s (the documents are ASCII, so the ASCII
  `Char.toUpper`/`Char.toLower`/`Char.isDigit` agree with Python's behaviour
  on the inputs in question).
* Numbers produced by `pd.to_numeric` on the extracted decimal tokens are
  modelled exactly as rationals (`ℚ`): for the sign and strict-positivity
  tests performed by the code this agrees with the float computation.
* The regular expressions of the source are embedded as data (`RE`) and run
  by an ordered backtracking matcher mirroring Python `re` semantics:
  leftmost match, greedy quantifiers try the longest repetition first, lazy
  quantifiers the shortest, alternation is left-biased.  The matcher is
  fuelled; the fuel is an upper bound on the recursion depth, which for the
  patterns of this code base (whose repetition bodies consume at least one
  character) is amply covered by the bound used below.
-/

namespace POCore

/-- Python `\s` on ASCII text: the six whitespace characters. -/
def pySpaceChar (c : Char) : Bool :=
  c == ' ' || c == '\t' || c == '\n' || c == '\r' || c == '\x0b' || c == '\x0c'

/-- Python `str.strip()`: remove leading and trailing whitespace. -/
def pyStrip (s : String) : String :=
  String.mk (((s.data.dropWhile pySpaceChar).reverse.dropWhile pySpaceChar).reverse)

/-- Python `str.rstrip()`: remove trailing whitespace. -/
def pyRstrip (s : String) : String :=
  String.mk ((s.data.reverse.dropWhile pySpaceChar).reverse)

/-- Python `str.upper()` (ASCII). -/
def pyUpper (s : String) : String := String.mk (s.data.map Char.toUpper)

/-- Python `str.lower()` (ASCII). -/
def pyLower (s : String) : String := String.mk (s.data.map Char.toLower)

/-- Does `hay` start with `pat`? -/
def listStarts [BEq α] : List α → List α → Bool
  | _, [] => true
  | [], _ :: _ => false
  | a :: as, b :: bs => a == b && listStarts as bs

/-- Does `hay` contain `pat` as a contiguous sublist?  (Python `pat in hay`.) -/
def listHasSub [BEq α] : List α → List α → Bool
  | [], pat => listStarts ([] : List α) pat
  | a :: rest, pat => listStarts (a :: rest) pat || listHasSub rest pat

/-- Python `needle in hay` on strings: substring containment. -/
def strContains (hay needle : String) : Bool := listHasSub hay.data needle.data

/-- Split a character list at every occurrence of `sep` (the pieces do not
contain `sep`); structural worker for the string splitters below. -/
def splitCharGo (sep : Char) : List Char → List Char → List (List Char)
  | [], cur => [cur.reverse]
  | c :: rest, cur =>
    if c == sep then cur.reverse :: splitCharGo sep rest []
    else splitCharGo sep rest (c :: cur)

/-- `s.split(sep)` for a one-character separator. -/
def splitChar (sep : Char) (s : String) : List String :=
  (splitCharGo sep s.data []).map String.mk

/-- Python `str.splitlines()` for documents whose line separator is `\n`:
split on `\n` and do not produce a final empty line for a trailing `\n`. -/
def pySplitlines (s : String) : List String :=
  let parts := splitChar '\n' s
  if parts.getLast? = some "" then parts.dropLast else parts

/-! ### A Python-`re` style backtracking regex engine -/

/-- Character classes occurring in the source's patterns.  Classes coming
from a pattern compiled with `re.IGNORECASE` carry the `CI` suffix. -/
inductive CC where
  | digit            -- `\d` / `[0-9]`
  | space            -- `\s`
  | nonspace         -- `\S`
  | anyNoNL          -- `.` without `re.DOTALL`
  | notNL            -- `[^\n]`
  | litc (c : Char)  -- a literal character, case-sensitive
  | litci (c : Char) -- a literal character under `re.IGNORECASE`
  | alphaCI          -- `[A-Z]` under `re.IGNORECASE`
  | alnumDollarCI    -- `[A-Z0-9$]` under `re.IGNORECASE`
  | digitDot         -- `[\d.]`
  | digitComma       -- `[\d,]`
deriving DecidableEq

def ccMatch : CC → Char → Bool
  | .digit, c => c.isDigit
  | .space, c => pySpaceChar c
  | .nonspace, c => !pySpaceChar c
  | .anyNoNL, c => !(c == '\n')
  | .notNL, c => !(c == '\n')
  | .litc ch, c => c == ch
  | .litci ch, c => c.toUpper == ch.toUpper
  | .alphaCI, c => c.isAlpha
  | .alnumDollarCI, c => c.isAlpha || c.isDigit || c == '$'
  | .digitDot, c => c.isDigit || c == '.'
  | .digitComma, c => c.isDigit || c == ','

/-- Embedded regular expressions.  `rep lo hi lz r` is `r{lo,hi}` (with
`hi = none` for an unbounded repetition), lazy when `lz` is `true`.
`grp n r` is the `n`-th capturing group.  `eos` is `$` (the patterns are
applied to single lines, which contain no newline), `wordB` is `\b`. -/
inductive RE where
  | eps
  | cc (c : CC)
  | seq (a b : RE)
  | alt (a b : RE)
  | rep (lo : Nat) (hi : Option Nat) (lz : Bool) (r : RE)
  | grp (n : Nat) (r : RE)
  | eos
  | wordB
deriving DecidableEq

def reSize : RE → Nat
  | .eps | .cc _ | .eos | .wordB => 1
  | .seq a b | .alt a b => reSize a + reSize b + 1
  | .rep _ _ _ r => reSize r + 1
  | .grp _ r => reSize r + 1

def isWordChar (c : Char) : Bool := c.isAlphanum || c == '_'

def wordBoundary (s : List Char) (i : Nat) : Bool :=
  let before := match (if i = 0 then none else s.get? (i - 1)) with
    | some c => isWordChar c
    | none => false
  let here := match s.get? i with
    | some c => isWordChar c
    | none => false
  before != here

/-- Record the capture of group `n` (a later capture overwrites an earlier
one, as in Python). -/
def capSet (caps : List (Nat × String)) (n : Nat) (v : String) : List (Nat × String) :=
  (n, v) :: caps.eraseP (fun p => p.1 == n)

def capGet (caps : List (Nat × String)) (n : Nat) : Option String :=
  (caps.find? (fun p => p.1 == n)).map Prod.snd

/-- The highest index of a group that captured (Python `m.lastindex`). -/
def capMax (caps : List (Nat × String)) : Option Nat :=
  caps.foldl (fun acc p =>
    match acc with
    | none => some p.1
    | some m => some (max m p.1)) none

def listSlice (s : List Char) (i j : Nat) : String :=
  String.mk ((s.drop i).take (j - i))

/-- The backtracking matcher, in continuation-passing style.  `k` receives
the end position and captures of one way of matching `re` from position `i`;
a `none` from `k` makes the matcher backtrack into the next alternative, in
Python's priority order. -/
def reRun (s : List Char) : Nat → RE → Nat → List (Nat × String) →
    (Nat → List (Nat × String) → Option (Nat × List (Nat × String))) →
    Option (Nat × List (Nat × String))
  | 0, _, _, _, _ => none
  | fuel + 1, re, i, caps, k =>
    match re with
    | .eps => k i caps
    | .cc c =>
      match s.get? i with
      | some ch => if ccMatch c ch then k (i + 1) caps else none
      | none => none
    | .seq a b => reRun s fuel a i caps (fun j caps2 => reRun s fuel b j caps2 k)
    | .alt a b =>
      match reRun s fuel a i caps k with
      | some r => some r
      | none => reRun s fuel b i caps k
    | .grp n r => reRun s fuel r i caps (fun j caps2 => k j (capSet caps2 n (listSlice s i j)))
    | .eos => if i = s.length then k i caps else none
    | .wordB => if wordBoundary s i then k i caps else none
    | .rep lo hi lz r =>
      let more := fun (_ : Unit) =>
        if hi = some 0 then none
        else reRun s fuel r i caps (fun j caps2 =>
          reRun s fuel (.rep (lo - 1) (hi.map (fun m => m - 1)) lz r) j caps2 k)
      let stop := fun (_ : Unit) => if lo = 0 then k i caps else none
      if lz then
        match stop () with
        | some res => some res
        | none => more ()
      else
        match more () with
        | some res => some res
        | none => stop ()

/-- A match: start, end, and the captured groups. -/
structure RMatch where
  ms : Nat
  me : Nat
  caps : List (Nat × String)
deriving DecidableEq

/-- Fuel bound: generous upper bound on the backtracking recursion depth for
patterns whose repetition bodies consume at least one character. -/
def reFuel (s : List Char) (r : RE) : Nat := (s.length + 2) * (4 * reSize r + 8)

/-- Try to match `r` at position `i` of `s` (Python `re.match` when `i = 0`). -/
def reMatchFrom (r : RE) (s : List Char) (i : Nat) : Option RMatch :=
  match reRun s (reFuel s r) r i [] (fun j caps => some (j, caps)) with
  | some (j, caps) => some ⟨i, j, caps⟩
  | none => none

/-- Python `pattern.match(t)`: anchored at position 0. -/
def reMatchB (r : RE) (t : String) : Option RMatch := reMatchFrom r t.data 0

def reSearchAux (r : RE) (s : List Char) : Nat → Nat → Option RMatch
  | _, 0 => none
  | i, n + 1 =>
    match reMatchFrom r s i with
    | some m => some m
    | none => reSearchAux r s (i + 1) n

/-- Python `re.search`: first (leftmost) match anywhere in the string. -/
def reSearch (r : RE) (t : String) : Option RMatch :=
  reSearchAux r t.data 0 (t.data.length + 1)

/-- Python `m.group(0)`: the whole matched text. -/
def mGroup0 (t : String) (m : RMatch) : String := listSlice t.data m.ms m.me

/-- Python `m.group(n)` for `n ≥ 1`. -/
def mGroup (m : RMatch) (n : Nat) : Option String := capGet m.caps n

/-- Python `m.lastindex`. -/
def mLast (m : RMatch) : Option Nat := capMax m.caps

/-! ### Pattern construction helpers -/

def rcat : List RE → RE
  | [] => .eps
  | [r] => r
  | r :: rest => .seq r (rcat rest)

/-- A literal string, case-sensitively. -/
def rlit (s : String) : RE := rcat (s.data.map (fun c => .cc (.litc c)))

/-- A literal string under `re.IGNORECASE`. -/
def rlitCI (s : String) : RE := rcat (s.data.map (fun c => .cc (.litci c)))

def rplus (r : RE) : RE := .rep 1 none false r
def rstar (r : RE) : RE := .rep 0 none false r
def rplusL (r : RE) : RE := .rep 1 none true r
def rstarL (r : RE) : RE := .rep 0 none true r
def ropt (r : RE) : RE := .rep 0 (some 1) false r
def rrange (lo : Nat) (hi : Option Nat) (r : RE) : RE := .rep lo hi false r
def rd : RE := .cc .digit
def rsp : RE := .cc .space
def rdot : RE := .cc .anyNoNL

/-! ### The source's regular expressions, as data -/

/-- `parse_wwnz` (app.py:232): the column banner `LINE.*ITEM NO.*ORD QTY.*PRICE`
(`re.search`, `re.I`). -/
def wwnzBannerRE : RE :=
  rcat [rlitCI "LINE", rstar rdot, rlitCI "ITEM NO", rstar rdot,
        rlitCI "ORD QTY", rstar rdot, rlitCI "PRICE"]

def wwnzBannerTest (ln : String) : Bool := (reSearch wwnzBannerRE ln).isSome

/-- `parse_wwnz` (app.py:240): the stop pattern `Order Totals|Total Value`
(`re.search`, `re.I`). -/
def wwnzTotalsRE : RE := .alt (rlitCI "Order Totals") (rlitCI "Total Value")

def wwnzTotalsTest (ln : String) : Bool := (reSearch wwnzTotalsRE ln).isSome

/-- `parse_wwnz` (app.py:244) data-row pattern, `re.match` against `ln.strip()`:
`^\s*(\d+)\s+(\d{8,14})\s+(.*?)\s+(\d{5,})\s+([\d.]+)\s+(\S+)\s+(\d+)\s+(\d+)\s+([\d.]+)`. -/
def wwnzRowRE : RE :=
  rcat [rstar rsp, .grp 1 (rplus rd), rplus rsp, .grp 2 (rrange 8 (some 14) rd),
        rplus rsp, .grp 3 (rstarL rdot), rplus rsp, .grp 4 (rrange 5 none rd),
        rplus rsp, .grp 5 (rplus (.cc .digitDot)), rplus rsp, .grp 6 (rplus (.cc .nonspace)),
        rplus rsp, .grp 7 (rplus rd), rplus rsp, .grp 8 (rplus rd),
        rplus rsp, .grp 9 (rplus (.cc .digitDot))]

/-- `parse_foodstuffs` (app.py:208), `re.match` with `re.I` against each line:
`^\s*\d+\s+(?P<article>\d{6,})\s+[A-Z0-9$]+\s+.+?\s+(?P<qty>\d+)\s+[A-Z]{2,4}\s+\d+\s+\$?(?P<price>[\d,]+\.\d{2}).*?\$?[\d,]+\.\d{2}\s*$`
(named groups `article`, `qty`, `price` are groups 1, 2, 3). -/
def fsRowRE : RE :=
  rcat [rstar rsp, rplus rd, rplus rsp, .grp 1 (rrange 6 none rd), rplus rsp,
        rplus (.cc .alnumDollarCI), rplus rsp, rplusL rdot, rplus rsp,
        .grp 2 (rplus rd), rplus rsp, rrange 2 (some 4) (.cc .alphaCI), rplus rsp,
        rplus rd, rplus rsp, ropt (.cc (.litc '$')),
        .grp 3 (rcat [rplus (.cc .digitComma), .cc (.litc '.'), rrange 2 (some 2) rd]),
        rstarL rdot, ropt (.cc (.litc '$')),
        rplus (.cc .digitComma), .cc (.litc '.'), rrange 2 (some 2) rd,
        rstar rsp, .eos]

/-- `parse_mfb` (app.py:264): `item\s*no.*qty.*description` (`re.search`, `re.I`). -/
def mfbHeaderRE : RE :=
  rcat [rlitCI "item", rstar rsp, rlitCI "no", rstar rdot, rlitCI "qty",
        rstar rdot, rlitCI "description"]

/-- `parse_mfb` (app.py:269): `\btotal\b|balance\s+due|page\s+\d+` (`re.search`, `re.I`). -/
def mfbStopRE : RE :=
  .alt (rcat [.wordB, rlitCI "total", .wordB])
    (.alt (rcat [rlitCI "balance", rplus rsp, rlitCI "due"])
          (rcat [rlitCI "page", rplus rsp, rplus rd]))

/-- `parse_mfb` (app.py:273): `^\s*10\d{6,}` (`re.match`). -/
def mfbStartRE : RE :=
  rcat [rstar rsp, .cc (.litc '1'), .cc (.litc '0'), rrange 6 none rd]

/-- The WWNZ profile's `([0-9]{1,2}/[0-9]{1,2}/[0-9]{2,4})` date group body. -/
def dateNumGroup : RE :=
  rcat [rrange 1 (some 2) rd, .cc (.litc '/'), rrange 1 (some 2) rd,
        .cc (.litc '/'), rrange 2 (some 4) rd]

/-- WWNZ header pattern `Order\s+Date\s*:\s*([0-9]{1,2}/[0-9]{1,2}/[0-9]{2,4})`
(app.py:43), used with `re.I|re.S`. -/
def wwnzOrderDateRE : RE :=
  rcat [rlitCI "Order", rplus rsp, rlitCI "Date", rstar rsp, .cc (.litc ':'),
        rstar rsp, .grp 1 dateNumGroup]

/-- WWNZ header pattern `Delivery\s+Date\s*:\s*([0-9]{1,2}/[0-9]{1,2}/[0-9]{2,4})`
(app.py:44), used with `re.I|re.S`. -/
def wwnzDeliveryDateRE : RE :=
  rcat [rlitCI "Delivery", rplus rsp, rlitCI "Date", rstar rsp, .cc (.litc ':'),
        rstar rsp, .grp 1 dateNumGroup]

/-- WWNZ header pattern `PRODUCE\s+ORDER\s+NUMBER\s*:\s*([0-9]+)` (app.py:42). -/
def wwnzPoRE : RE :=
  rcat [rlitCI "PRODUCE", rplus rsp, rlitCI "ORDER", rplus rsp, rlitCI "NUMBER",
        rstar rsp, .cc (.litc ':'), rstar rsp, .grp 1 (rplus rd)]

/-! ### Numeric normalizer (`normalize_numeric`, app.py:157 / pdf_to_csv.py:144) -/

/-- The cleaning step `re.sub(r"[\s,\$]", "", x)`: delete all whitespace,
commas and dollar signs. -/
def stripNumJunk (s : String) : String :=
  String.mk (s.data.filter (fun c => !(pySpaceChar c || c == ',' || c == '$')))

/-- Greedy `\d+(?:\.\d+)?` at the head of the character list. -/
def digitsTok (l : List Char) : Option (List Char) :=
  if l.takeWhile Char.isDigit = [] then none
  else
    match l.drop (l.takeWhile Char.isDigit).length with
    | '.' :: r2 =>
      if r2.takeWhile Char.isDigit = [] then some (l.takeWhile Char.isDigit)
      else some (l.takeWhile Char.isDigit ++ '.' :: r2.takeWhile Char.isDigit)
    | _ => some (l.takeWhile Char.isDigit)

/-- `-?\d+(?:\.\d+)?` at the head of the character list (the optional sign is
kept only when digits follow, as the backtracking regex does). -/
def numTokenAt : List Char → Option (List Char)
  | [] => none
  | c :: rest =>
    if c == '-' then (digitsTok rest).map (fun t => '-' :: t)
    else digitsTok (c :: rest)

/-- `str.extract(r"(-?\d+(?:\.\d+)?)")`: the leftmost numeric token. -/
def extractNum : List Char → Option (List Char)
  | [] => none
  | c :: rest =>
    match numTokenAt (c :: rest) with
    | some t => some t
    | none => extractNum rest

def natOfDigits (l : List Char) : Nat :=
  l.foldl (fun n c => 10 * n + (c.toNat - '0'.toNat)) 0

/-- Numerator and denominator of an unsigned decimal token `digits` or
`digits.digits` (the rationals are built with `mkRat` so that everything
stays kernel-computable). -/
def tokVal (l : List Char) : Int × Nat :=
  match l.drop (l.takeWhile Char.isDigit).length with
  | '.' :: fr =>
    (Int.ofNat (natOfDigits (l.takeWhile Char.isDigit) * 10 ^ fr.length + natOfDigits fr),
     10 ^ fr.length)
  | _ => (Int.ofNat (natOfDigits (l.takeWhile Char.isDigit)), 1)

/-- Exact value of a signed decimal token (`pd.to_numeric` on the extracted
token, modelled over `ℚ`). -/
def parseFixedTok (l : List Char) : ℚ :=
  match l with
  | [] => mkRat (tokVal []).1 (tokVal []).2
  | c :: rest =>
    if c == '-' then mkRat (-(tokVal rest).1) (tokVal rest).2
    else mkRat (tokVal (c :: rest)).1 (tokVal (c :: rest)).2

/-- `normalize_numeric` on one cell (the series version maps this over the
column): strip `[\s,\$]`, extract the first `-?\d+(?:\.\d+)?` token, coerce;
no token yields `NaN`, modelled as `none`. -/
def normalize_numeric (x : String) : Option ℚ :=
  (extractNum (stripNumJunk x).data).map parseFixedTok

/-! ### Date parsing (`parse_date_safe`, app.py:116 / pdf_to_csv.py:165) -/

inductive Ord3 where
  | dmY   -- day, month, 4-digit year  (`%d/%m/%Y`)
  | dmy   -- day, month, 2-digit year  (`%d/%m/%y`)
  | Ymd   -- 4-digit year, month, day  (`%Y/%m/%d`)
deriving DecidableEq

structure DateFmt where
  sep : Char
  ord : Ord3
deriving DecidableEq

/-- The source's format tuple
`("%d/%m/%Y", "%d/%m/%y", "%Y/%m/%d", "%d-%m-%Y", "%Y-%m-%d")`. -/
def pyDateFormats : List DateFmt :=
  [⟨'/', .dmY⟩, ⟨'/', .dmy⟩, ⟨'/', .Ymd⟩, ⟨'-', .dmY⟩, ⟨'-', .Ymd⟩]

def allDigits (l : List Char) : Bool := l.all Char.isDigit

/-- CPython `_strptime` `%d` token `3[01]|[12]\d|0[1-9]|[1-9]`, as a
full-token acceptor: one digit 1-9, or two digits 01-31. -/
def tokDay (s : String) : Option Nat :=
  let l := s.data
  if allDigits l && (l.length == 1 || l.length == 2) then
    let v := natOfDigits l
    if 1 ≤ v ∧ v ≤ 31 then some v else none
  else none

/-- CPython `_strptime` `%m` token `1[0-2]|0[1-9]|[1-9]`. -/
def tokMon (s : String) : Option Nat :=
  let l := s.data
  if allDigits l && (l.length == 1 || l.length == 2) then
    let v := natOfDigits l
    if 1 ≤ v ∧ v ≤ 12 then some v else none
  else none

/-- CPython `_strptime` `%Y` token `\d\d\d\d`: exactly four digits. -/
def tokY4 (s : String) : Option Nat :=
  let l := s.data
  if allDigits l && l.length == 4 then some (natOfDigits l) else none

/-- CPython `_strptime` `%y` token `\d\d` with the century rule
(00-68 → 2000s, 69-99 → 1900s). -/
def tokY2 (s : String) : Option Nat :=
  let l := s.data
  if allDigits l && l.length == 2 then
    let v := natOfDigits l
    some (if v ≤ 68 then 2000 + v else 1900 + v)
  else none

def isLeap (y : Nat) : Bool := (y % 4 == 0 && y % 100 != 0) || y % 400 == 0

def daysInMonth (y m : Nat) : Nat :=
  if m == 2 then (if isLeap y then 29 else 28)
  else if m == 4 || m == 6 || m == 9 || m == 11 then 30
  else 31

structure PDate where
  y : Nat
  m : Nat
  d : Nat
deriving DecidableEq

/-- The `datetime` constructor's validation: year 1-9999 and a day that
exists in the month. -/
def dateValid (dt : PDate) : Bool :=
  1 ≤ dt.y && dt.y ≤ 9999 && 1 ≤ dt.d && dt.d ≤ daysInMonth dt.y dt.m

/-- `datetime.strptime(s, fmt)` for the five formats of the source: the
compiled `_strptime` regex is token/sep/token/sep/token where the tokens
match only digits and the separator is not a digit, so a successful match
is exactly a 3-way split on the separator with each part accepted by its
token. -/
def strptimeDate (f : DateFmt) (s : String) : Option PDate :=
  match splitChar f.sep s with
  | [p1, p2, p3] =>
    let dt : Option PDate :=
      match f.ord with
      | .dmY => (tokDay p1).bind (fun d => (tokMon p2).bind (fun m =>
          (tokY4 p3).map (fun y => PDate.mk y m d)))
      | .dmy => (tokDay p1).bind (fun d => (tokMon p2).bind (fun m =>
          (tokY2 p3).map (fun y => PDate.mk y m d)))
      | .Ymd => (tokY4 p1).bind (fun y => (tokMon p2).bind (fun m =>
          (tokDay p3).map (fun d => PDate.mk y m d)))
    match dt with
    | some dt => if dateValid dt then some dt else none
    | none => none
  | _ => none

def pad2 (n : Nat) : String := if n < 10 then "0" ++ toString n else toString n

def pad4 (n : Nat) : String :=
  if n < 10 then "000" ++ toString n
  else if n < 100 then "00" ++ toString n
  else if n < 1000 then "0" ++ toString n
  else toString n

/-- `date.isoformat()`. -/
def isoStr (dt : PDate) : String := pad4 dt.y ++ "-" ++ pad2 dt.m ++ "-" ++ pad2 dt.d

def strptimeIso (f : DateFmt) (s : String) : Option String := (strptimeDate f s).map isoStr

def firstSomeMap (f : α → Option β) : List α → Option β
  | [] => none
  | a :: rest =>
    match f a with
    | some b => some b
    | none => firstSomeMap f rest

/-- `parse_date_safe(s)`: `None` for a falsy (empty) string; otherwise try
the five formats in order on `s.strip()` and return the first ISO date;
if all fail, return `s` itself. -/
def parse_date_safe (s : String) : Option String :=
  if s = "" then none
  else
    match firstSomeMap (fun f => strptimeIso f (pyStrip s)) pyDateFormats with
    | some iso => some iso
    | none => some s

def parse_date_safeOpt (s : Option String) : Option String :=
  match s with
  | none => none
  | some v => parse_date_safe v

/-! ### Header field extraction -/

/-- The value shapes `extract_by_regex` can produce: a single string or the
list of (stripped) captured groups. -/
inductive ExtractVal where
  | vstr (s : String)
  | vlist (l : List (Option String))
deriving DecidableEq

/-- Number of capturing groups defined by a pattern. -/
def reGroupCount : RE → Nat
  | .eps | .cc _ | .eos | .wordB => 0
  | .seq a b | .alt a b => max (reGroupCount a) (reGroupCount b)
  | .rep _ _ _ r => reGroupCount r
  | .grp n r => max n (reGroupCount r)

namespace App

/-- `extract(pattern, text)` (app.py:126, flags `re.I|re.S` baked into the
pattern data): `None` for a missing pattern, empty text or no match;
otherwise `m.group(1).strip()` when `m.lastindex` is set, else
`m.group(0).strip()`.  (When `lastindex` is set, group 1 participated for
every pattern in this code base; Python would raise otherwise.) -/
def extract (pattern : Option RE) (text : String) : Option String :=
  match pattern with
  | none => none
  | some pat =>
    if text = "" then none
    else
      match reSearch pat text with
      | none => none
      | some m =>
        match mLast m with
        | some _ => (mGroup m 1).map pyStrip
        | none => some (pyStrip (mGroup0 text m))

end App

namespace Pdf

/-- `extract_by_regex(pattern, text)` (pdf_to_csv.py:175, `re.IGNORECASE`
baked into the pattern data): group 1 stripped when exactly one group
captured; the list of all (stripped) groups when `m.lastindex ≥ 2`; the
whole match when no group captured; `None` when there is no match. -/
def extract_by_regex (pattern : Option RE) (text : String) : Option ExtractVal :=
  match pattern with
  | none => none
  | some pat =>
    if text = "" then none
    else
      match reSearch pat text with
      | none => none
      | some m =>
        match mLast m with
        | some li =>
          if li = 1 then (mGroup m 1).map (fun g => .vstr (pyStrip g))
          else some (.vlist ((List.range (reGroupCount pat)).map
            (fun i => (mGroup m (i + 1)).map pyStrip)))
        | none => some (.vstr (pyStrip (mGroup0 text m)))

end Pdf

/-! ### Vendor detection -/

def appFsKeywords : List String := ["Foodstuffs North Island Limited", "Order Forecast", "O/F"]

def appWwnzKeywords : List String :=
  ["WOOLWORTHS NZ", "WOOLWORTHS NEW ZEALAND", "PRODUCE ORDER NUMBER", "VENDOR COPY"]

def appMfbKeywords : List String := ["My Food Bag", "My Food Bag Limited", "GST Reg. No:"]

/-- `any(kw.upper() in t for kw in keys)` where `t` is the upper-cased text. -/
def hasHit (keys : List String) (tUpper : String) : Bool :=
  keys.any (fun k => strContains tUpper (pyUpper k))

namespace App

/-- `detect_vendor` (app.py:134): empty text → `None`; WWNZ keywords are
checked first ("prefer WWNZ first"), then `Foodstuffs_NI`, then `MyFoodBag`. -/
def detect_vendor (text : String) : Option String :=
  if text = "" then none
  else
    let t := pyUpper text
    if hasHit appWwnzKeywords t then some "WWNZ"
    else if hasHit appFsKeywords t then some "Foodstuffs_NI"
    else if hasHit appMfbKeywords t then some "MyFoodBag"
    else none

end App

/-- `VENDOR_PROFILES` of pdf_to_csv.py in dict insertion order, with each
profile's `detect_keywords`. -/
def pdfProfileKeywords : List (String × List String) :=
  [("Foodstuffs_NI", ["Foodstuffs North Island Limited", "Order Forecast", "O/F"]),
   ("MyFoodBag", ["My Food Bag Limited", "PURCHASE ORDER", "GST Reg. No:"]),
   ("WWNZ", ["WOOLWORTHS NZ", "NEW PURCHASE ORDER", "VENDOR COPY",
             "WOOLWORTHS NEW ZEALAND", "PRODUCE ORDER NUMBER"])]

namespace Pdf

/-- `detect_vendor` (pdf_to_csv.py:202): iterate `VENDOR_PROFILES.items()`
in registry (insertion) order and return the first vendor one of whose
keywords occurs in the upper-cased text. -/
def detect_vendor (text : String) : Option String :=
  let t := pyUpper text
  firstSomeMap (fun p => if hasHit p.2 t then some p.1 else none) pdfProfileKeywords

end Pdf

/-! ### Line-item parsers (app.py) -/

structure Row where
  item_id : String
  quantity : String
  price : String
deriving DecidableEq, Repr

/-- One line of `parse_foodstuffs`: on a match, item = `article`,
quantity = `qty`, price = `price` with commas removed. -/
def fsRowMatch (ln : String) : Option Row :=
  match reMatchB fsRowRE ln with
  | none => none
  | some m =>
    match mGroup m 1, mGroup m 2, mGroup m 3 with
    | some art, some qty, some pr =>
      some ⟨art, qty, String.mk (pr.data.filter (fun c => !(c == ',')))⟩
    | _, _, _ => none   -- unreachable: groups 1-3 always capture on a match

/-- `parse_foodstuffs` (app.py:206): match every line of the text. -/
def parse_foodstuffs (text : String) : List Row :=
  (pySplitlines text).filterMap fsRowMatch

/-- One data line of `parse_wwnz`: `re.match` against `ln.strip()`;
item = group 4, quantity = group 8, price = group 9. -/
def wwnzRowMatch (ln : String) : Option Row :=
  match reMatchB wwnzRowRE (pyStrip ln) with
  | none => none
  | some m =>
    match mGroup m 4, mGroup m 8, mGroup m 9 with
    | some itemNo, some qty, some pr => some ⟨itemNo, qty, pr⟩
    | _, _, _ => none   -- unreachable: these groups always capture on a match

/-- The `parse_wwnz` loop once `data_started` is `True`: a banner line is
skipped (the banner test precedes the totals test in the source), a totals
line stops the loop, any other line contributes a row when it matches. -/
def wwnzScanStarted : List String → List Row
  | [] => []
  | ln :: rest =>
    if wwnzBannerTest ln then wwnzScanStarted rest
    else if wwnzTotalsTest ln then []
    else
      match wwnzRowMatch ln with
      | some r => r :: wwnzScanStarted rest
      | none => wwnzScanStarted rest

/-- The `parse_wwnz` loop while `data_started` is `False`: only the banner
test can change the state; all other lines are skipped. -/
def wwnzScanIdle : List String → List Row
  | [] => []
  | ln :: rest => if wwnzBannerTest ln then wwnzScanStarted rest else wwnzScanIdle rest

/-- `parse_wwnz` (app.py:223). -/
def parse_wwnz (text : String) : List Row := wwnzScanIdle (pySplitlines text)

def splitRunsGo : Nat → List Char → List Char → List String
  | 0, l, cur => [String.mk (cur.reverse ++ l)]   -- fuel never runs out for the fuel below
  | _ + 1, [], cur => [String.mk cur.reverse]
  | fuel + 1, c :: rest, cur =>
    if pySpaceChar c then
      let run := (c :: rest).takeWhile pySpaceChar
      if 2 ≤ run.length then
        String.mk cur.reverse :: splitRunsGo fuel ((c :: rest).drop run.length) []
      else splitRunsGo fuel rest (c :: cur)
    else splitRunsGo fuel rest (c :: cur)

/-- Python `re.split(r"\s{2,}", s)`: split on maximal runs of at least two
whitespace characters (a single whitespace stays inside its chunk). -/
def mfbSplit (s : String) : List String := splitRunsGo (s.data.length + 1) s.data []

def mfbHeaderTest (ln : String) : Bool := (reSearch mfbHeaderRE ln).isSome
def mfbStopTest (ln : String) : Bool := (reSearch mfbStopRE ln).isSome
def mfbStartTest (ln : String) : Bool := (reMatchB mfbStartRE ln).isSome

/-- `re.sub(r"[^\d.]", "", s)`: keep only digits and dots. -/
def keepDigitsDot (s : String) : String :=
  String.mk (s.data.filter (fun c => c.isDigit || c == '.'))

/-- One data line of `parse_mfb` (app.py:273-291): lines starting with
`10` + 6 digits are split on 2+ whitespace; with at least 5 parts, item is
part 0, quantity part 1, price part 4 (`len(parts) > 4` always holds here),
cleaned to digits and dots; all three must be non-empty. -/
def mfbRow (dl : String) : Option Row :=
  if mfbStartTest dl then
    let parts := mfbSplit (pyStrip dl)
    if 5 ≤ parts.length then
      let item_no := pyStrip (parts.getD 0 "")
      let qty := keepDigitsDot (pyStrip (parts.getD 1 ""))
      let price := keepDigitsDot (pyStrip (parts.getD 4 ""))
      if qty ≠ "" && price ≠ "" && item_no ≠ "" then some ⟨item_no, qty, price⟩
      else none
    else none
  else none

/-- The inner `parse_mfb` loop over the lines after the header line,
stopping at the first totals/footer line. -/
def mfbScan : List String → List Row
  | [] => []
  | ln :: rest =>
    if mfbStopTest ln then []
    else
      match mfbRow ln with
      | some r => r :: mfbScan rest
      | none => mfbScan rest

/-- `parse_mfb` (app.py:256): keep the non-blank lines right-stripped, find
the first header line, scan the lines after it. -/
def parse_mfb (text : String) : List Row :=
  let lines := (pySplitlines text).filterMap
    (fun ln => if pyStrip ln = "" then none else some (pyRstrip ln))
  match lines.findIdx? mfbHeaderTest with
  | none => []
  | some i => mfbScan (lines.drop (i + 1))

/-! ### Validation (`validate_dataframe`, app.py:296 / fixed_app.py:245) -/

structure ValidRow where
  item_id : String
  quantity : ℚ
  price : ℚ
deriving DecidableEq, Repr

/-- The fate of one parsed row under `validate_dataframe`: rows with an
empty `item_id` are removed, `quantity` and `price` are normalized (`NaN`
= `none` on failure), and only rows with `quantity > 0` and `price > 0`
survive (a `NaN` comparison is `False` in pandas, hence `none` drops the
row).  Rows are processed independently, so the whole function is a
`filterMap` of this.  (`dropna(how='all')` and the `notna` test are no-ops
on the string-valued rows the three parsers emit.) -/
def rowKeep (r : Row) : Option ValidRow :=
  if r.item_id = "" then none
  else
    match normalize_numeric r.quantity, normalize_numeric r.price with
    | some q, some p => if 0 < q ∧ 0 < p then some ⟨r.item_id, q, p⟩ else none
    | _, _ => none

def validate_dataframe (rows : List Row) (vendor_name : String) : List ValidRow :=
  rows.filterMap rowKeep

/-! ### Auto fallback (app.py main loop, lines 369-378) -/

def pyMaxKeyGo (bk : String) (bv : Nat) : List (String × Nat) → String
  | [] => bk
  | (k, v) :: rest => if bv < v then pyMaxKeyGo k v rest else pyMaxKeyGo bk bv rest

/-- Python `max(sizes, key=lambda k: sizes[k])` over the insertion-ordered
dict: the first key attaining the maximum value. -/
def pyMaxKey : List (String × Nat) → Option String
  | [] => none
  | (k, v) :: rest => some (pyMaxKeyGo k v rest)

/-- `sizes` of the fallback: validated row counts of all three parsers. -/
def fallbackSizes (text : String) : List (String × Nat) :=
  [("Foodstuffs_NI", (validate_dataframe (parse_foodstuffs text) "Foodstuffs_NI").length),
   ("WWNZ", (validate_dataframe (parse_wwnz text) "WWNZ").length),
   ("MyFoodBag", (validate_dataframe (parse_mfb text) "MyFoodBag").length)]

/-- The auto fallback: `if any(sizes.values()): chosen = max(sizes, key=...)`;
when every size is zero, `active_vendor` stays `None` (undetected). -/
def autoFallback (text : String) : Option String :=
  let sizes := fallbackSizes text
  if sizes.any (fun p => p.2 != 0) then pyMaxKey sizes else none

/-! ### Store resolution -/

structure StoreRow where
  site_code : String
  name : String
  store_id : String
deriving DecidableEq

namespace App

/-- `key = str(name_text).strip().lower()` (app.py:188). -/
def lookupKey (nt : String) : String := pyLower (pyStrip nt)

/-- `key[:40]`: the key truncated to its first 40 characters (app.py:191). -/
def lookupKey40 (nt : String) : String := String.mk ((lookupKey nt).data.take 40)

/-- `store_lookup(name_text, store_map_df)` (app.py:180): `(None, None)`
for a missing table or falsy name; pass 1 takes the first row whose
lower-cased name contains `key[:40]` (`str.contains` with the escaped
key), pass 2 the first row whose lower-cased name contains the full `key`
(the lambda `key in x` tests containment of `key` in the row's name,
despite the source's "reverse contains" comment); otherwise
`(None, None)`. -/
def store_lookup (name_text : Option String) (store_map : Option (List StoreRow)) :
    Option String × Option String :=
  match store_map, name_text with
  | none, _ => (none, none)
  | some _, none => (none, none)
  | some rows, some nt =>
    if nt = "" then (none, none)
    else
      match rows.find? (fun r => strContains (pyLower r.name) (lookupKey40 nt)) with
      | some r => (some r.store_id, some r.name)
      | none =>
        match rows.find? (fun r =>
            if pyLower r.name == "" then false
            else strContains (pyLower r.name) (lookupKey nt)) with
        | some r => (some r.store_id, some r.name)
        | none => (none, none)

end App

namespace Pdf

/-- Pass 1 of `map_store_to_ids` (pdf_to_csv.py:300-305): for a truthy site
code, the first row whose stripped `site_code` equals the stripped input
(a case-sensitive comparison — only `strip()` is applied). -/
def sitePass (site_code : Option String) (rows : List StoreRow) : Option StoreRow :=
  match site_code with
  | some sc =>
    if sc = "" then none
    else rows.find? (fun r => pyStrip r.site_code == pyStrip sc)
  | none => none

/-- Pass 2 of `map_store_to_ids` (pdf_to_csv.py:306-313): for a truthy
store name, the first row whose lower-cased name contains
`store_name.strip().lower()` (the key is `re.escape`d, so `str.contains`
is plain substring containment). -/
def namePass (store_name : Option String) (rows : List StoreRow) : Option StoreRow :=
  match store_name with
  | some nm =>
    if nm = "" then none
    else rows.find? (fun r => strContains (pyLower r.name) (pyLower (pyStrip nm)))
  | none => none

/-- `map_store_to_ids(site_code, store_name, store_map_df)`
(pdf_to_csv.py:290): `(None, None)` for a missing table; otherwise the site
pass, then the name pass; there is no reverse-containment pass; with no
match anywhere, `(None, None)`. -/
def map_store_to_ids (site_code store_name : Option String)
    (store_map : Option (List StoreRow)) : Option String × Option String :=
  match store_map with
  | none => (none, none)
  | some rows =>
    match sitePass site_code rows with
    | some r => (some r.store_id, some r.name)
    | none =>
      match namePass store_name rows with
      | some r => (some r.store_id, some r.name)
      | none => (none, none)

end Pdf

/-! ### Order-date resolution -/

structure HeaderPatterns where
  po_number : Option RE
  order_date : Option RE
  delivery_date : Option RE

/-- The WWNZ profile's `header_extract` patterns (app.py:41-45). -/
def wwnzHeader : HeaderPatterns :=
  ⟨some wwnzPoRE, some wwnzOrderDateRE, some wwnzDeliveryDateRE⟩

namespace App

/-- app.py main loop (lines 387-388):
`order_date = extract(prof["header_extract"].get("Delivery_Date") or
prof["header_extract"].get("Order_Date"), text)` then `parse_date_safe`.
The Python `or` selects between the *patterns* (a configured pattern string
is truthy), not between the extracted values. -/
def resolveOrderDate (hp : HeaderPatterns) (text : String) : Option String :=
  let pat :=
    match hp.delivery_date with
    | some p => some p
    | none => hp.order_date
  parse_date_safeOpt (extract pat text)

end App

namespace Pdf

/-- pdf_to_csv.py `to_DCorder_template` / `to_CDDCorder_template`
(lines 322/335): `order_date = df.get("Delivery_Date").fillna(df.get("Order_Date"))`,
applied to the per-document scalar values: the delivery date if present
(non-null), otherwise the order date. -/
def dcOrderDate (deliv ord : Option String) : Option String :=
  match deliv with
  | some d => some d
  | none => ord

end Pdf

/-! ### Claim-side (spec-worded) definitions -/

/-- Modelled from claim C10 (amended): the rows emitted by `parse_wwnz` are
exactly the matches of the data-row pattern on the lines strictly after the
first banner line, up to (exclusive) the first subsequent line that matches
the totals pattern without also matching the banner pattern, banner lines
being skipped. -/
def wwnzWindowRows (text : String) : List Row :=
  let lines := pySplitlines text
  match lines.dropWhile (fun ln => !wwnzBannerTest ln) with
  | [] => []
  | _ :: after =>
    (after.takeWhile (fun ln => wwnzBannerTest ln || !wwnzTotalsTest ln)).filterMap
      (fun ln => if wwnzBannerTest ln then none else wwnzRowMatch ln)

/-- Modelled from claim C6: "deleting the dollar sign and all commas". -/
def stripDollarComma (s : String) : String :=
  String.mk (s.data.filter (fun c => !(c == '$' || c == ',')))

/-- A two-group pattern `(A)(B)` (built, like every pattern `extract`
compiles, under `re.IGNORECASE`); used to separate `extract`'s behaviour
from the "whole match" reading of the spec. -/
def abRE : RE := .seq (.grp 1 (.cc (.litci 'A'))) (.grp 2 (.cc (.litci 'B')))

/-- A document on which the Foodstuffs and WWNZ line-pattern extractors
each yield exactly one validated row (a tie) and the MyFoodBag extractor
none. -/
def tieText : String :=
  "LINE ITEM NO ORD QTY PRICE\n1 123456789 Apples 73495 10.0 6x8 10 12 54.00\n5 123456 ABC desc 10 CTN 5 $3.50 x $35.00"

/-! ## Claim C1 -/

/-- C1: a row survives `validate_dataframe` only if its item identifier is
non-empty and its quantity and price both normalize to strictly positive
values — every surviving row descends from an input row passing exactly
those checks; in particular a row whose quantity is `"0"` or whose price is
`"0.00"` is dropped (both normalize to `0`), hence never emitted. -/
theorem claim_C1_validation (rows : List Row) (vn : String) :
    (∀ v ∈ validate_dataframe rows vn,
      v.item_id ≠ "" ∧ 0 < v.quantity ∧ 0 < v.price ∧
      ∃ r, r ∈ rows ∧ r.item_id = v.item_id ∧
        normalize_numeric r.quantity = some v.quantity ∧
        normalize_numeric r.price = some v.price) ∧
    (∀ r : Row, r.quantity = "0" ∨ r.price = "0.00" → rowKeep r = none) ∧
    normalize_numeric "0" = some 0 ∧ normalize_numeric "0.00" = some 0 := by
  refine ⟨?_, ?_, by decide, by decide⟩
  · intro v hv
    rw [validate_dataframe, List.mem_filterMap] at hv
    obtain ⟨r, hr, hk⟩ := hv
    rw [rowKeep] at hk
    by_cases hid : r.item_id = ""
    · rw [if_pos hid] at hk
      exact absurd hk (by simp)
    · rw [if_neg hid] at hk
      rcases hq : normalize_numeric r.quantity with _ | q <;>
        rcases hp : normalize_numeric r.price with _ | p <;>
        rw [hq, hp] at hk <;>
        simp only [] at hk
      · exact absurd hk (by simp)
      · exact absurd hk (by simp)
      · exact absurd hk (by simp)
      · by_cases hpos : 0 < q ∧ 0 < p
        · rw [if_pos hpos, Option.some.injEq] at hk
          subst hk
          exact ⟨hid, hpos.1, hpos.2, r, hr, rfl, hq, hp⟩
        · rw [if_neg hpos] at hk
          exact absurd hk (by simp)
  · intro r h
    rw [rowKeep]
    by_cases hid : r.item_id = ""
    · rw [if_pos hid]
    · rw [if_neg hid]
      have h0 : normalize_numeric "0" = some 0 := by decide
      have h00 : normalize_numeric "0.00" = some 0 := by decide
      rcases h with h | h
      · rw [h, h0]
        rcases hp : normalize_numeric r.price with _ | p <;> simp
      · rw [h, h00]
        rcases hq : normalize_numeric r.quantity with _ | q <;> simp

/-- Closed instance of C1: rows with quantity `"0"` or price `"0.00"` are
dropped, and a well-formed row survives with its exact normalized values. -/
theorem claim_C1_witness :
    rowKeep ⟨"654321", "0", "2.50"⟩ = none ∧
    rowKeep ⟨"654321", "3", "0.00"⟩ = none ∧
    (⟨"654321", mkRat 10 1, mkRat 250 100⟩ : ValidRow).item_id ≠ "" :=
  ⟨(claim_C1_validation [] "").2.1 ⟨"654321", "0", "2.50"⟩ (Or.inl rfl),
   (claim_C1_validation [] "").2.1 ⟨"654321", "3", "0.00"⟩ (Or.inr rfl),
   ((claim_C1_validation [⟨"654321", "10", "$2.50"⟩] "x").1
     ⟨"654321", mkRat 10 1, mkRat 250 100⟩ (by decide)).1⟩

/-! ## Claim C2 -/

/-- C2 counterexample: a document containing both a WWNZ keyword
(`WOOLWORTHS NZ`) and a Foodstuffs keyword is classified `Foodstuffs_NI`,
not `WWNZ`, by `pdf_to_csv.py`'s detector, which iterates the registry in
insertion order (`Foodstuffs_NI`, `MyFoodBag`, `WWNZ`). -/
theorem claim_C2_counterexample :
    Pdf.detect_vendor "WOOLWORTHS NZ - FOODSTUFFS NORTH ISLAND LIMITED" =
      some "Foodstuffs_NI" ∧
    strContains (pyUpper "WOOLWORTHS NZ - FOODSTUFFS NORTH ISLAND LIMITED")
      (pyUpper "WOOLWORTHS NZ") = true ∧
    strContains (pyUpper "WOOLWORTHS NZ - FOODSTUFFS NORTH ISLAND LIMITED")
      (pyUpper "Foodstuffs North Island Limited") = true := by
  exact ⟨by decide, by decide, by decide⟩

/-- C2 (amended): `app.py`'s detector does check WWNZ first, so any text
containing a WWNZ keyword yields `WWNZ` there; but `pdf_to_csv.py`'s
detector follows registry iteration order, so any text containing a
Foodstuffs keyword yields `Foodstuffs_NI` there, regardless of WWNZ
keywords. -/
theorem claim_C2_amended :
    (∀ text : String, hasHit appWwnzKeywords (pyUpper text) = true →
      App.detect_vendor text = some "WWNZ") ∧
    (∀ text : String, hasHit appFsKeywords (pyUpper text) = true →
      Pdf.detect_vendor text = some "Foodstuffs_NI") := by
  constructor
  · intro text h
    by_cases ht : text = ""
    · subst ht
      exact absurd h (by decide)
    · simp [App.detect_vendor, ht, h]
  · intro text h
    simp only [appFsKeywords] at h
    simp [Pdf.detect_vendor, pdfProfileKeywords, firstSomeMap, h]

/-- Closed instance of C2 (amended), at the inputs of the counterexample. -/
theorem claim_C2_witness :
    App.detect_vendor "WOOLWORTHS NZ - FOODSTUFFS NORTH ISLAND LIMITED" =
      some "WWNZ" ∧
    Pdf.detect_vendor "Foodstuffs North Island Limited order" =
      some "Foodstuffs_NI" :=
  ⟨claim_C2_amended.1 _ (by decide), claim_C2_amended.2 _ (by decide)⟩

/-! ## Claim C4 -/

/-- C4 counterexample: with the WWNZ profile (which configures a
delivery-date pattern), a document whose order-date pattern matches but
whose delivery-date pattern does not yields a `None` order date in app.py's
pipeline — the `or` falls back over the *patterns*, not the extracted
values — although the order-date value extracts and parses fine. -/
theorem claim_C4_counterexample :
    App.resolveOrderDate wwnzHeader "Order Date : 01/02/2023" = none ∧
    App.extract (some wwnzOrderDateRE) "Order Date : 01/02/2023" = some "01/02/2023" ∧
    parse_date_safe "01/02/2023" = some "2023-02-01" ∧
    App.extract (some wwnzDeliveryDateRE) "Order Date : 01/02/2023" = none := by
  exact ⟨by decide, by decide, by decide, by decide⟩

/-- C4 (amended): in `pdf_to_csv.py`'s assembler the order date is resolved
at the value level (delivery date if present, else order date); in `app.py`
the fallback is at the pattern level: whenever the profile defines a
delivery-date pattern, only that pattern is extracted, and if it fails to
match, the order date is null even when the order-date pattern matches. -/
theorem claim_C4_amended :
    (∀ (d : String) (o : Option String), Pdf.dcOrderDate (some d) o = some d) ∧
    (∀ o : Option String, Pdf.dcOrderDate none o = o) ∧
    (∀ (hp : HeaderPatterns) (text : String) (p : RE), hp.delivery_date = some p →
      App.resolveOrderDate hp text = parse_date_safeOpt (App.extract (some p) text)) ∧
    (∀ (hp : HeaderPatterns) (text : String), hp.delivery_date = none →
      App.resolveOrderDate hp text = parse_date_safeOpt (App.extract hp.order_date text)) := by
  refine ⟨fun d o => rfl, fun o => rfl, ?_, ?_⟩
  · intro hp text p hdel
    simp [App.resolveOrderDate, hdel]
  · intro hp text hdel
    simp [App.resolveOrderDate, hdel]

/-- Closed instance of C4 (amended) at the counterexample's input. -/
theorem claim_C4_witness :
    Pdf.dcOrderDate (some "2025-09-03") (some "2025-09-01") = some "2025-09-03" ∧
    App.resolveOrderDate wwnzHeader "Order Date : 01/02/2023" =
      parse_date_safeOpt
        (App.extract (some wwnzDeliveryDateRE) "Order Date : 01/02/2023") :=
  ⟨claim_C4_amended.1 "2025-09-03" (some "2025-09-01"),
   claim_C4_amended.2.2.1 wwnzHeader "Order Date : 01/02/2023" wwnzDeliveryDateRE rfl⟩

/-! ## Claim C9 -/

/-- C9 counterexample: for a pattern with two capturing groups, `app.py`'s
`extract` returns the *first group* (`"A"`), not the whole match (`"AB"`);
`pdf_to_csv.py`'s `extract_by_regex` returns the list of groups, also not
the whole match. -/
theorem claim_C9_counterexample :
    App.extract (some abRE) "xAB" = some "A" ∧
    (reSearch abRE "xAB").map (mGroup0 "xAB") = some "AB" ∧
    Pdf.extract_by_regex (some abRE) "xAB" = some (.vlist [some "A", some "B"]) := by
  exact ⟨by decide, by decide, by decide⟩

/-- C9 (amended): `extract` performs a single first-match search; with no
match the field is null and no error is raised; when no group captured the
whole match (stripped) is returned; when any group captured the *first
group* (stripped) is returned — the whole match is used only for
group-free patterns. -/
theorem claim_C9_amended :
    (∀ (pat : RE) (text : String), reSearch pat text = none →
      App.extract (some pat) text = none) ∧
    (∀ (pat : RE) (text : String) (m : RMatch), text ≠ "" →
      reSearch pat text = some m → mLast m = none →
      App.extract (some pat) text = some (pyStrip (mGroup0 text m))) ∧
    (∀ (pat : RE) (text : String) (m : RMatch), text ≠ "" →
      reSearch pat text = some m → (∃ n, mLast m = some n) →
      App.extract (some pat) text = (mGroup m 1).map pyStrip) ∧
    (∀ text : String, App.extract none text = none) := by
  refine ⟨?_, ?_, ?_, fun text => rfl⟩
  · intro pat text hs
    by_cases ht : text = ""
    · simp [App.extract, ht]
    · simp [App.extract, ht, hs]
  · intro pat text m ht hs hl
    simp [App.extract, ht, hs, hl]
  · intro pat text m ht hs hl
    obtain ⟨n, hn⟩ := hl
    simp [App.extract, ht, hs, hn]

/-- Closed instance of C9 (amended): the no-match, missing-pattern and
group-capture branches at concrete inputs. -/
theorem claim_C9_witness :
    App.extract (some (rlit "Z")) "xAB" = none ∧
    App.extract none "hello" = none ∧
    App.extract (some abRE) "xAB" =
      (mGroup ⟨1, 3, [(2, "B"), (1, "A")]⟩ 1).map pyStrip :=
  ⟨claim_C9_amended.1 (rlit "Z") "xAB" (by decide),
   claim_C9_amended.2.2.2 "hello",
   claim_C9_amended.2.2.1 abRE "xAB" ⟨1, 3, [(2, "B"), (1, "A")]⟩ (by decide)
     (by decide) ⟨2, by decide⟩⟩

/-! ## Claim C10 -/

/-- The started phase of the WWNZ scan is a `takeWhile`/`filterMap`: rows
come from the lines before the first non-banner totals line, banner lines
skipped. -/
theorem wwnzScanStarted_eq (l : List String) :
    wwnzScanStarted l =
      (l.takeWhile (fun ln => wwnzBannerTest ln || !wwnzTotalsTest ln)).filterMap
        (fun ln => if wwnzBannerTest ln then none else wwnzRowMatch ln) := by
  induction l with
  | nil => rfl
  | cons ln rest ih =>
    by_cases hb : wwnzBannerTest ln
    · simp [wwnzScanStarted, hb, List.takeWhile_cons, ih]
    · by_cases htt : wwnzTotalsTest ln
      · simp [wwnzScanStarted, hb, htt, List.takeWhile_cons]
      · rcases hrm : wwnzRowMatch ln with _ | r <;>
          simp [wwnzScanStarted, hb, htt, hrm, List.takeWhile_cons, ih]

/-- The idle phase of the WWNZ scan drops everything up to and including
the first banner line, then behaves as the started phase. -/
theorem wwnzScanIdle_eq (l : List String) :
    wwnzScanIdle l =
      match l.dropWhile (fun ln => !wwnzBannerTest ln) with
      | [] => []
      | _ :: after => wwnzScanStarted after := by
  induction l with
  | nil => rfl
  | cons ln rest ih =>
    by_cases hb : wwnzBannerTest ln
    · simp [wwnzScanIdle, hb, List.dropWhile_cons]
    · simp [wwnzScanIdle, hb, List.dropWhile_cons, ih]

/-- C10 (amended): `parse_wwnz` emits exactly the row matches of the lines
strictly after the first banner line and strictly before the first
subsequent line that matches the totals pattern *without also matching the
banner pattern* (banner lines are re-tested first and skipped, so a line
matching both does not stop the scan); with no banner line anywhere the
result is empty, whatever the other lines contain. -/
theorem claim_C10_window (text : String) :
    parse_wwnz text = wwnzWindowRows text ∧
    ((∀ ln ∈ pySplitlines text, wwnzBannerTest ln = false) → parse_wwnz text = []) := by
  constructor
  · rw [parse_wwnz, wwnzScanIdle_eq, wwnzWindowRows]
    rcases hd : (pySplitlines text).dropWhile (fun ln => !wwnzBannerTest ln) with _ | ⟨a, after⟩
    · rfl
    · simp [wwnzScanStarted_eq]
  · intro h
    rw [parse_wwnz, wwnzScanIdle_eq]
    have hnil : (pySplitlines text).dropWhile (fun ln => !wwnzBannerTest ln) = [] := by
      rw [List.dropWhile_eq_nil_iff]
      intro x hx
      simp [h x hx]
    rw [hnil]

/-- C10 counterexample: the second line matches the totals pattern (it also
matches the banner pattern), yet the row on the third line — strictly after
that totals-matching line — is still emitted, refuting "strictly before the
first subsequent line matching Order Totals / Total Value" as stated. -/
theorem claim_C10_counterexample :
    parse_wwnz
        "LINE ITEM NO ORD QTY PRICE\nLINE ITEM NO ORD QTY PRICE Order Totals\n1 123456789 Apples 73495 10.0 6x8 10 12 54.00" =
      [⟨"73495", "12", "54.00"⟩] ∧
    (pySplitlines
        "LINE ITEM NO ORD QTY PRICE\nLINE ITEM NO ORD QTY PRICE Order Totals\n1 123456789 Apples 73495 10.0 6x8 10 12 54.00").getD 1 "" =
      "LINE ITEM NO ORD QTY PRICE Order Totals" ∧
    wwnzTotalsTest "LINE ITEM NO ORD QTY PRICE Order Totals" = true ∧
    (pySplitlines
        "LINE ITEM NO ORD QTY PRICE\nLINE ITEM NO ORD QTY PRICE Order Totals\n1 123456789 Apples 73495 10.0 6x8 10 12 54.00").getD 2 "" =
      "1 123456789 Apples 73495 10.0 6x8 10 12 54.00" ∧
    wwnzRowMatch "1 123456789 Apples 73495 10.0 6x8 10 12 54.00" =
      some ⟨"73495", "12", "54.00"⟩ := by
  exact ⟨by decide, by decide, by decide, by decide, by decide⟩

/-- Closed instance of C10: a text whose only line matches the item-row
pattern but which contains no banner line yields no rows. -/
theorem claim_C10_witness :
    parse_wwnz "1 123456789 Apples 73495 10.0 6x8 10 12 54.00" = [] ∧
    wwnzRowMatch "1 123456789 Apples 73495 10.0 6x8 10 12 54.00" =
      some ⟨"73495", "12", "54.00"⟩ :=
  ⟨(claim_C10_window "1 123456789 Apples 73495 10.0 6x8 10 12 54.00").2 (by decide),
   by decide⟩

/-! ## Claim C3 -/

/-- C3 counterexample: on `tieText`, the Foodstuffs and WWNZ extractors tie
at one validated row each, yet the detector selects `Foodstuffs_NI` — the
first profile in the fixed dict order — instead of returning Undetected. -/
theorem claim_C3_counterexample :
    fallbackSizes tieText = [("Foodstuffs_NI", 1), ("WWNZ", 1), ("MyFoodBag", 0)] ∧
    autoFallback tieText = some "Foodstuffs_NI" := by
  exact ⟨by decide, by decide⟩

/-- C3 (amended): all row counts zero yields Undetected; otherwise Python's
`max` over the insertion-ordered dict returns the *first* profile attaining
the maximum (`Foodstuffs_NI`, then `WWNZ`, then `MyFoodBag`) — so a unique
strict maximum wins, but a tie selects the earliest tied profile rather
than Undetected. -/
theorem claim_C3_fallback (text : String) (a b c : Nat)
    (hs : fallbackSizes text = [("Foodstuffs_NI", a), ("WWNZ", b), ("MyFoodBag", c)]) :
    (a = 0 ∧ b = 0 ∧ c = 0 → autoFallback text = none) ∧
    (¬(a = 0 ∧ b = 0 ∧ c = 0) →
      autoFallback text =
        some (if b ≤ a ∧ c ≤ a then "Foodstuffs_NI"
              else if c ≤ b then "WWNZ" else "MyFoodBag")) := by
  constructor
  · rintro ⟨ha, hb, hc⟩
    subst ha; subst hb; subst hc
    rw [autoFallback, hs]
    rfl
  · intro h
    rw [autoFallback, hs]
    have hany : ([("Foodstuffs_NI", a), ("WWNZ", b), ("MyFoodBag", c)].any
        (fun p => p.2 != 0)) = true := by
      simp only [List.any_cons, List.any_nil, Bool.or_false, Bool.or_eq_true,
        bne_iff_ne, ne_eq]
      omega
    rw [hany]
    simp only [if_true, pyMaxKey, pyMaxKeyGo, Option.some.injEq]
    split_ifs <;> first | rfl | omega

/-- Closed instance of C3 (amended) at the tie document: the first profile
in the fixed order is selected. -/
theorem claim_C3_witness : autoFallback tieText = some "Foodstuffs_NI" :=
  Eq.trans ((claim_C3_fallback tieText 1 1 0 (by decide)).2 (by simp)) (by norm_num)

/-! ## Claim C5 -/

/-- C5 counterexample: the spec's own reverse-containment example — mapping
name `Christchurch DC`, extracted name `christchurch dc annex` — resolves
to `(None, None)` in both implementations, although the extracted name does
contain the mapping name (third conjunct): no reverse-containment pass
exists. -/
theorem claim_C5_counterexample :
    Pdf.map_store_to_ids none (some "christchurch dc annex")
      (some [⟨"1234", "Christchurch DC", "S9"⟩]) = (none, none) ∧
    App.store_lookup (some "christchurch dc annex")
      (some [⟨"1234", "Christchurch DC", "S9"⟩]) = (none, none) ∧
    strContains (pyLower "christchurch dc annex") (pyLower "Christchurch DC") = true := by
  exact ⟨by decide, by decide, by decide⟩

/-- C5 (amended): `map_store_to_ids` resolves via the exact site-code pass
(whitespace-stripped, case-sensitive, first match) and then via forward
containment only — the mapping row's name containing the full extracted
key; `store_lookup` resolves only via forward containment (truncated key,
then full key); a row is never returned for any other reason, and no match
yields `(None, None)` rather than an error. -/
theorem claim_C5_resolution :
    (∀ (s : String) (nm : Option String) (rows : List StoreRow) (r : StoreRow),
      s ≠ "" →
      rows.find? (fun q => pyStrip q.site_code == pyStrip s) = some r →
      Pdf.map_store_to_ids (some s) nm (some rows) = (some r.store_id, some r.name)) ∧
    (∀ (sc nm : Option String) (rows : List StoreRow) (sid snm : String),
      Pdf.map_store_to_ids sc nm (some rows) = (some sid, some snm) →
      ∃ r, r ∈ rows ∧ sid = r.store_id ∧ snm = r.name ∧
        ((∃ s, sc = some s ∧ pyStrip r.site_code = pyStrip s) ∨
         (∃ n, nm = some n ∧
           strContains (pyLower r.name) (pyLower (pyStrip n)) = true))) ∧
    (∀ (nt : Option String) (rows : List StoreRow) (sid snm : String),
      App.store_lookup nt (some rows) = (some sid, some snm) →
      ∃ n r, nt = some n ∧ r ∈ rows ∧ sid = r.store_id ∧ snm = r.name ∧
        (strContains (pyLower r.name) (App.lookupKey40 n) = true ∨
         strContains (pyLower r.name) (App.lookupKey n) = true)) ∧
    (∀ (nt : String) (rows : List StoreRow),
      rows.find? (fun r =>
        strContains (pyLower r.name) (App.lookupKey40 nt)) = none →
      rows.find? (fun r => if pyLower r.name == "" then false
          else strContains (pyLower r.name) (App.lookupKey nt)) = none →
      App.store_lookup (some nt) (some rows) = (none, none)) := by
  refine ⟨?_, ?_, ?_, ?_⟩
  · intro s nm rows r hs hfind
    rw [Pdf.map_store_to_ids, Pdf.sitePass, if_neg hs, hfind]
  · intro sc nm rows sid snm h
    rw [Pdf.map_store_to_ids] at h
    rcases hsp : Pdf.sitePass sc rows with _ | r
    · rw [hsp] at h
      rcases hnp : Pdf.namePass nm rows with _ | r
      · rw [hnp] at h
        exact absurd h (by simp)
      · rw [hnp] at h
        simp only [Prod.mk.injEq, Option.some.injEq] at h
        rcases nm with _ | n
        · exact absurd hnp (by simp [Pdf.namePass])
        · rw [Pdf.namePass] at hnp
          by_cases hn : n = ""
          · rw [if_pos hn] at hnp
            cases hnp
          · rw [if_neg hn] at hnp
            exact ⟨r, List.mem_of_find?_eq_some hnp, h.1.symm, h.2.symm,
              Or.inr ⟨n, rfl, by simpa using List.find?_some hnp⟩⟩
    · rw [hsp] at h
      simp only [Prod.mk.injEq, Option.some.injEq] at h
      rcases sc with _ | s
      · exact absurd hsp (by simp [Pdf.sitePass])
      · rw [Pdf.sitePass] at hsp
        by_cases hs : s = ""
        · rw [if_pos hs] at hsp
          cases hsp
        · rw [if_neg hs] at hsp
          refine ⟨r, List.mem_of_find?_eq_some hsp, h.1.symm, h.2.symm,
            Or.inl ⟨s, rfl, ?_⟩⟩
          have := List.find?_some hsp
          rwa [beq_iff_eq] at this
  · intro nt rows sid snm h
    rcases nt with _ | n
    · exact absurd h (by simp [App.store_lookup])
    · rw [App.store_lookup] at h
      by_cases hn : n = ""
      · rw [if_pos hn] at h
        exact absurd h (by simp)
      · rw [if_neg hn] at h
        rcases hf1 : List.find? (fun r =>
            strContains (pyLower r.name) (App.lookupKey40 n)) rows with _ | r
        · rw [hf1] at h
          rcases hf2 : List.find? (fun r => if pyLower r.name == "" then false
              else strContains (pyLower r.name) (App.lookupKey n)) rows with _ | r
          · rw [hf2] at h
            exact absurd h (by simp)
          · rw [hf2] at h
            simp only [Prod.mk.injEq, Option.some.injEq] at h
            have hp : (if pyLower r.name == "" then false
                else strContains (pyLower r.name) (App.lookupKey n)) = true := by
              simpa using List.find?_some hf2
            by_cases he : pyLower r.name == ""
            · rw [if_pos he] at hp
              cases hp
            · rw [if_neg he] at hp
              exact ⟨n, r, rfl, List.mem_of_find?_eq_some hf2, h.1.symm, h.2.symm,
                Or.inr hp⟩
        · rw [hf1] at h
          simp only [Prod.mk.injEq, Option.some.injEq] at h
          exact ⟨n, r, rfl, List.mem_of_find?_eq_some hf1, h.1.symm, h.2.symm,
            Or.inl (by simpa using List.find?_some hf1)⟩
  · intro nt rows hf1 hf2
    rw [App.store_lookup]
    by_cases hn : nt = ""
    · rw [if_pos hn]
    · rw [if_neg hn, hf1, hf2]

/-- Closed instance of C5 (amended): the spec's site-code example resolves
through the exact pass. -/
theorem claim_C5_witness :
    Pdf.map_store_to_ids (some "1234") (some "anything")
      (some [⟨"1234", "Christchurch DC", "S9"⟩]) =
      (some "S9", some "Christchurch DC") :=
  claim_C5_resolution.1 "1234" (some "anything") [⟨"1234", "Christchurch DC", "S9"⟩]
    ⟨"1234", "Christchurch DC", "S9"⟩ (by decide) (by decide)

/-! ## Claim C8 -/

/-- C8: for every non-empty date string, parsing tries the fixed ordered
format list `D/M/Y`, `D/M/YY`, `Y/M/D`, `D-M-Y`, `Y-M-D` on the
whitespace-stripped string, returning the ISO date of the first format
that parses; when none parses, the original string is returned verbatim
(not null, no error). -/
theorem claim_C8_dates (s : String) (hs : s ≠ "") :
    (∀ d, strptimeIso ⟨'/', .dmY⟩ (pyStrip s) = some d → parse_date_safe s = some d) ∧
    (strptimeIso ⟨'/', .dmY⟩ (pyStrip s) = none →
      ∀ d, strptimeIso ⟨'/', .dmy⟩ (pyStrip s) = some d → parse_date_safe s = some d) ∧
    (strptimeIso ⟨'/', .dmY⟩ (pyStrip s) = none →
      strptimeIso ⟨'/', .dmy⟩ (pyStrip s) = none →
      ∀ d, strptimeIso ⟨'/', .Ymd⟩ (pyStrip s) = some d → parse_date_safe s = some d) ∧
    (strptimeIso ⟨'/', .dmY⟩ (pyStrip s) = none →
      strptimeIso ⟨'/', .dmy⟩ (pyStrip s) = none →
      strptimeIso ⟨'/', .Ymd⟩ (pyStrip s) = none →
      ∀ d, strptimeIso ⟨'-', .dmY⟩ (pyStrip s) = some d → parse_date_safe s = some d) ∧
    (strptimeIso ⟨'/', .dmY⟩ (pyStrip s) = none →
      strptimeIso ⟨'/', .dmy⟩ (pyStrip s) = none →
      strptimeIso ⟨'/', .Ymd⟩ (pyStrip s) = none →
      strptimeIso ⟨'-', .dmY⟩ (pyStrip s) = none →
      ∀ d, strptimeIso ⟨'-', .Ymd⟩ (pyStrip s) = some d → parse_date_safe s = some d) ∧
    (strptimeIso ⟨'/', .dmY⟩ (pyStrip s) = none →
      strptimeIso ⟨'/', .dmy⟩ (pyStrip s) = none →
      strptimeIso ⟨'/', .Ymd⟩ (pyStrip s) = none →
      strptimeIso ⟨'-', .dmY⟩ (pyStrip s) = none →
      strptimeIso ⟨'-', .Ymd⟩ (pyStrip s) = none →
      parse_date_safe s = some s) := by
  refine ⟨?_, ?_, ?_, ?_, ?_, ?_⟩
  · intro d h1
    simp [parse_date_safe, hs, pyDateFormats, firstSomeMap, h1]
  · intro h1 d h2
    simp [parse_date_safe, hs, pyDateFormats, firstSomeMap, h1, h2]
  · intro h1 h2 d h3
    simp [parse_date_safe, hs, pyDateFormats, firstSomeMap, h1, h2, h3]
  · intro h1 h2 h3 d h4
    simp [parse_date_safe, hs, pyDateFormats, firstSomeMap, h1, h2, h3, h4]
  · intro h1 h2 h3 h4 d h5
    simp [parse_date_safe, hs, pyDateFormats, firstSomeMap, h1, h2, h3, h4, h5]
  · intro h1 h2 h3 h4 h5
    simp [parse_date_safe, hs, pyDateFormats, firstSomeMap, h1, h2, h3, h4, h5]

/-- Closed instance of C8: the spec's example date `03/09/25` parses via the
second format (`D/M/YY`, after `D/M/Y` fails on the 2-digit year) to
`2025-09-03`, and the impossible date `31/02/2023` fails all five formats
and is returned verbatim. -/
theorem claim_C8_witness :
    parse_date_safe "03/09/25" = some "2025-09-03" ∧
    parse_date_safe "31/02/2023" = some "31/02/2023" :=
  ⟨(claim_C8_dates "03/09/25" (by decide)).2.1 (by decide) "2025-09-03" (by decide),
   (claim_C8_dates "31/02/2023" (by decide)).2.2.2.2.2 (by decide) (by decide)
     (by decide) (by decide) (by decide)⟩

/-! ## Claim C6 -/

theorem char_ne_of_digit {c d : Char} (hc : c.isDigit = true)
    (hd : d.isDigit = false) : (c == d) = false := by
  by_cases h : c = d
  · subst h
    rw [hc] at hd
    cases hd
  · exact beq_eq_false_iff_ne.mpr h

theorem pySpace_digit {c : Char} (hc : c.isDigit = true) : pySpaceChar c = false := by
  unfold pySpaceChar
  rw [@char_ne_of_digit c ' ' hc (by decide), @char_ne_of_digit c '\t' hc (by decide),
      @char_ne_of_digit c '\n' hc (by decide), @char_ne_of_digit c '\r' hc (by decide),
      @char_ne_of_digit c '\x0b' hc (by decide), @char_ne_of_digit c '\x0c' hc (by decide)]
  rfl

/-- Digits survive the `[\s,\$]` deletion of `normalize_numeric`. -/
theorem normKeep_digit {c : Char} (hc : c.isDigit = true) :
    (!(pySpaceChar c || c == ',' || c == '$')) = true := by
  rw [pySpace_digit hc, @char_ne_of_digit c ',' hc (by decide),
      @char_ne_of_digit c '$' hc (by decide)]
  rfl

/-- Digits survive the claim's dollar/comma deletion. -/
theorem specKeep_digit {c : Char} (hc : c.isDigit = true) :
    (!(c == '$' || c == ',')) = true := by
  rw [@char_ne_of_digit c '$' hc (by decide), @char_ne_of_digit c ',' hc (by decide)]
  rfl

theorem takeWhile_append_all {p : Char → Bool} (D rest : List Char)
    (hD : ∀ c ∈ D, p c = true) :
    (D ++ rest).takeWhile p = D ++ rest.takeWhile p := by
  induction D with
  | nil => rfl
  | cons d ds ih =>
    rw [List.cons_append, List.takeWhile_cons, if_pos (hD d (by simp)),
        ih (fun c hc => hD c (by simp [hc])), List.cons_append]

theorem filter_digit_list (f : Char → Bool) (g : List Char)
    (hgd : ∀ c ∈ g, c.isDigit = true)
    (hdig : ∀ c : Char, c.isDigit = true → f c = true) :
    g.filter f = g :=
  List.filter_eq_self.mpr (fun c hc => hdig c (hgd c hc))

theorem filter_comma_groups (f : Char → Bool) (gs : List (List Char))
    (hgs : ∀ t ∈ gs, ∀ c ∈ t, c.isDigit = true)
    (hdig : ∀ c : Char, c.isDigit = true → f c = true) (hcomma : f ',' = false) :
    ((gs.map (fun t => ',' :: t)).flatten).filter f = gs.flatten := by
  induction gs with
  | nil => rfl
  | cons t ts ih =>
    rw [List.map_cons, List.flatten_cons, List.filter_append, List.filter_cons, hcomma,
        List.flatten_cons, if_neg (by simp),
        filter_digit_list f t (hgs t (by simp)) hdig,
        ih (fun u hu => hgs u (by simp [hu]))]

/-- Deleting characters from the `"$" digits ("," digits)* "." digit digit`
shape with any filter that keeps digits and `'.'` and removes `'$'` and
`','` leaves exactly `digits* "." digit digit`. -/
theorem filter_shape (f : Char → Bool) (g : List Char) (gs : List (List Char))
    (a b : Char)
    (hgd : ∀ c ∈ g, c.isDigit = true) (hgs : ∀ t ∈ gs, ∀ c ∈ t, c.isDigit = true)
    (ha : a.isDigit = true) (hb : b.isDigit = true)
    (hdig : ∀ c : Char, c.isDigit = true → f c = true)
    (hdollar : f '$' = false) (hcomma : f ',' = false) (hdot : f '.' = true) :
    ('$' :: (g ++ (gs.map (fun t => ',' :: t)).flatten ++ '.' :: [a, b])).filter f =
      g ++ gs.flatten ++ '.' :: [a, b] := by
  rw [List.filter_cons, hdollar, if_neg (by simp), List.filter_append,
      List.filter_append, filter_digit_list f g hgd hdig,
      filter_comma_groups f gs hgs hdig hcomma, List.filter_cons, hdot,
      if_pos rfl, List.filter_cons, hdig a ha, if_pos rfl, List.filter_cons,
      hdig b hb, if_pos rfl, List.filter_nil]

theorem digitsTok_decimal (D : List Char) (a b : Char) (hD : D ≠ [])
    (hDd : ∀ c ∈ D, c.isDigit = true) (ha : a.isDigit = true) (hb : b.isDigit = true) :
    digitsTok (D ++ '.' :: [a, b]) = some (D ++ '.' :: [a, b]) := by
  have htw : (D ++ '.' :: [a, b]).takeWhile Char.isDigit = D := by
    rw [takeWhile_append_all D ('.' :: [a, b]) hDd, List.takeWhile_cons,
        if_neg (by decide), List.append_nil]
  have hfr : ([a, b] : List Char).takeWhile Char.isDigit = [a, b] := by
    rw [List.takeWhile_cons, if_pos ha, List.takeWhile_cons, if_pos hb]
    rfl
  rw [digitsTok, htw, if_neg hD, List.drop_left]
  show (if List.takeWhile Char.isDigit [a, b] = [] then some D
    else some (D ++ '.' :: List.takeWhile Char.isDigit [a, b])) = some (D ++ '.' :: [a, b])
  rw [hfr, if_neg (by simp)]

theorem extractNum_decimal (D : List Char) (a b : Char) (hD : D ≠ [])
    (hDd : ∀ c ∈ D, c.isDigit = true) (ha : a.isDigit = true) (hb : b.isDigit = true) :
    extractNum (D ++ '.' :: [a, b]) = some (D ++ '.' :: [a, b]) := by
  rcases D with _ | ⟨d, D'⟩
  · exact absurd rfl hD
  · have hd : d.isDigit = true := hDd d (by simp)
    have hnum : numTokenAt ((d :: D') ++ '.' :: [a, b]) =
        some ((d :: D') ++ '.' :: [a, b]) := by
      rw [List.cons_append, numTokenAt, @char_ne_of_digit d '-' hd (by decide),
          if_neg (by simp), ← List.cons_append,
          digitsTok_decimal (d :: D') a b (by simp) hDd ha hb]
    rw [List.cons_append, extractNum, ← List.cons_append, hnum]

theorem tokVal_decimal (D : List Char) (a b : Char) (hD : D ≠ [])
    (hDd : ∀ c ∈ D, c.isDigit = true) :
    tokVal (D ++ '.' :: [a, b]) =
      (Int.ofNat (natOfDigits D * 100 + natOfDigits [a, b]), 100) := by
  have htw : (D ++ '.' :: [a, b]).takeWhile Char.isDigit = D := by
    rw [takeWhile_append_all D ('.' :: [a, b]) hDd, List.takeWhile_cons,
        if_neg (by decide), List.append_nil]
  rw [tokVal, htw, List.drop_left]
  show (Int.ofNat (natOfDigits D * 10 ^ 2 + natOfDigits [a, b]), 10 ^ 2) =
    (Int.ofNat (natOfDigits D * 100 + natOfDigits [a, b]), 100)
  norm_num

theorem parseFixedTok_decimal (D : List Char) (a b : Char) (hD : D ≠ [])
    (hDd : ∀ c ∈ D, c.isDigit = true) :
    parseFixedTok (D ++ '.' :: [a, b]) =
      mkRat (Int.ofNat (natOfDigits D * 100 + natOfDigits [a, b])) 100 := by
  rcases D with _ | ⟨d, D'⟩
  · exact absurd rfl hD
  · have hd : d.isDigit = true := hDd d (by simp)
    rw [List.cons_append, parseFixedTok, @char_ne_of_digit d '-' hd (by decide),
        if_neg (by simp), ← List.cons_append,
        tokVal_decimal (d :: D') a b (by simp) hDd]

/-- C6: for every string of the shape
`"$" + digits + ("," + digits)* + "." + 2 digits`, `normalize_numeric`
returns exactly the value obtained by deleting the dollar sign and all the
commas and parsing the remainder as a plain decimal — concretely,
`digits-concatenation + two-digit-fraction / 100`. -/
theorem claim_C6_currency (s : String) (g : List Char) (gs : List (List Char))
    (a b : Char)
    (hs : s.data = '$' :: (g ++ (gs.map (fun t => ',' :: t)).flatten ++ '.' :: [a, b]))
    (hg : g ≠ []) (hgd : ∀ c ∈ g, c.isDigit = true)
    (hgs : ∀ t ∈ gs, ∀ c ∈ t, c.isDigit = true)
    (ha : a.isDigit = true) (hb : b.isDigit = true) :
    stripDollarComma s = String.mk ((g ++ gs.flatten) ++ '.' :: [a, b]) ∧
    normalize_numeric s = some (parseFixedTok (stripDollarComma s).data) ∧
    normalize_numeric s =
      some (mkRat (Int.ofNat (natOfDigits (g ++ gs.flatten) * 100 + natOfDigits [a, b]))
        100) := by
  have hDd : ∀ c ∈ g ++ gs.flatten, c.isDigit = true := by
    intro c hc
    rcases List.mem_append.mp hc with h | h
    · exact hgd c h
    · obtain ⟨t, ht, hct⟩ := List.mem_flatten.mp h
      exact hgs t ht c hct
  have hD : g ++ gs.flatten ≠ [] := by
    rcases g with _ | ⟨x, xs⟩
    · exact absurd rfl hg
    · simp
  have hstrip1 : (stripNumJunk s).data = (g ++ gs.flatten) ++ '.' :: [a, b] := by
    rw [stripNumJunk, hs,
      filter_shape (fun c => !(pySpaceChar c || c == ',' || c == '$')) g gs a b hgd hgs
        ha hb (fun c hc => normKeep_digit hc) (by decide) (by decide) (by decide),
      List.append_assoc]
  have hstrip2 : (stripDollarComma s).data = (g ++ gs.flatten) ++ '.' :: [a, b] := by
    rw [stripDollarComma, hs,
      filter_shape (fun c => !(c == '$' || c == ',')) g gs a b hgd hgs
        ha hb (fun c hc => specKeep_digit hc) (by decide) (by decide) (by decide),
      List.append_assoc]
  have hnorm : normalize_numeric s =
      some (parseFixedTok ((g ++ gs.flatten) ++ '.' :: [a, b])) := by
    rw [normalize_numeric, hstrip1, extractNum_decimal _ _ _ hD hDd ha hb]
    rfl
  refine ⟨?_, ?_, ?_⟩
  · apply String.ext
    rw [hstrip2]
  · rw [hnorm, hstrip2]
  · rw [hnorm, parseFixedTok_decimal _ _ _ hD hDd]

/-- Closed instance of C6 at the spec's example: `$1,234.56` normalizes to
`1234.56`. -/
theorem claim_C6_witness :
    normalize_numeric "$1,234.56" = some (mkRat 123456 100) :=
  Eq.trans
    ((claim_C6_currency "$1,234.56" ['1'] [['2', '3', '4']] '5' '6' (by decide)
      (by decide) (by decide) (by decide) (by decide) (by decide)).2.2)
    (by decide)

end POCore
